import Mathlib

/-!
Verification of the match evaluation and ranking subsystem of
`acacore/siegfried/siegfried.py`.

The Python source is shallowly embedded: strings are Lean `String`
(manipulated through their `List Char` data; Python `str.strip`,
`str.lower`, `str.split` and the three regular expressions of the module
are modelled at the ASCII level, which covers every string the claims
mention), pydantic models become structures, the pydantic decode step
becomes an explicit function over a JSON value type, and Python
exceptions become an `Except` error type that distinguishes pydantic
validation failures (caught as `ValueError` by the callers, the spec's
`DecodeError`) from exceptions such as `AttributeError`/`KeyError`
raised inside the `unknown_id` validator, which pydantic does not catch.
Datetime fields and URL fields are modelled as their transport strings;
the validity checks pydantic performs on them are outside every claim.
-/

/-- Python whitespace characters for `str.strip` (ASCII range). -/
def pyIsSpace (c : Char) : Bool :=
  c.toNat = 32 || c.toNat = 9 || c.toNat = 10 || c.toNat = 13 || c.toNat = 11 || c.toNat = 12

/-- Python `str.lower`, modelled on the ASCII range. -/
def pyToLower (c : Char) : Char :=
  match c with
  | 'A' => 'a' | 'B' => 'b' | 'C' => 'c' | 'D' => 'd' | 'E' => 'e' | 'F' => 'f'
  | 'G' => 'g' | 'H' => 'h' | 'I' => 'i' | 'J' => 'j' | 'K' => 'k' | 'L' => 'l'
  | 'M' => 'm' | 'N' => 'n' | 'O' => 'o' | 'P' => 'p' | 'Q' => 'q' | 'R' => 'r'
  | 'S' => 's' | 'T' => 't' | 'U' => 'u' | 'V' => 'v' | 'W' => 'w' | 'X' => 'x'
  | 'Y' => 'y' | 'Z' => 'z' | c => c

/-- Python `str.strip` on the character list of a string. -/
def pyStripL (l : List Char) : List Char :=
  (((l.dropWhile pyIsSpace).reverse).dropWhile pyIsSpace).reverse

/-- Python `str.lower` on the character list of a string. -/
def pyLowerL (l : List Char) : List Char :=
  l.map pyToLower

/-- Python `s.split(";")` on the character list of a string. -/
def pySplitSemi : List Char → List (List Char)
  | [] => [[]]
  | c :: r =>
    if c = ';' then [] :: pySplitSemi r
    else
      match pySplitSemi r with
      | [] => [[c]]
      | h :: t => (c :: h) :: t

/-- The normalization `filter(bool, map(str.strip, data[k].strip().split(";")))`
applied by `SiegfriedMatch.unknown_id` to the `basis` and `warning` fields. -/
def splitField (s : String) : List String :=
  (((pySplitSemi (pyStripL s.data)).map pyStripL).filter (fun f => !f.isEmpty)).map String.mk

/-- The `id` normalization of `SiegfriedMatch.unknown_id`:
`None if data["id"].lower().strip() == "unknown" else data["id"].strip() or None`. -/
def normalizeId (s : String) : Option String :=
  if pyStripL (pyLowerL s.data) = "unknown".data then none
  else if pyStripL s.data = [] then none
  else some (String.mk (pyStripL s.data))

/-- Consume a literal sequence of characters from the front of a string,
returning the remainder; models a literal segment of a regular expression. -/
def dropLit : List Char → List Char → Option (List Char)
  | [], r => some r
  | c :: cs, r =>
    match r with
    | [] => none
    | d :: ds => if d = c then dropLit cs ds else none

/-- Python `re` end anchor for patterns without MULTILINE: a dollar matches
at the end of the string or just before one final newline. -/
def pyEnd (l : List Char) : Bool :=
  match l with
  | [] => true
  | ['\n'] => true
  | _ => false

/-- Python `int()` on a string of decimal digits (as produced by a `\d+` group). -/
def digitsInt (l : List Char) : Int :=
  Int.ofNat (l.foldl (fun n c => n * 10 + (c.toNat - 48)) 0)

/-- The tail `( *\([^)]*\))?$` of `_byte_match_regexp_single`. -/
def singleTail (r : List Char) : Bool :=
  pyEnd r ||
    (match r.dropWhile (fun c => decide (c = ' ')) with
     | '(' :: t =>
       (match t.dropWhile (fun c => !decide (c = ')')) with
        | ')' :: u => pyEnd u
        | _ => false)
     | _ => false)

/-- Matching against `_byte_match_regexp_single`, i.e. the regular expression
`^byte match at (\d+), *(\d+)( *\([^)]*\))?$`; returns the two integer groups. -/
def parseByteSingle (l : List Char) : Option (Int × Int) :=
  match dropLit "byte match at ".data l with
  | none => none
  | some r =>
    let d1 := r.takeWhile Char.isDigit
    let r1 := r.dropWhile Char.isDigit
    if d1 = [] then none
    else
      match r1 with
      | ',' :: r2 =>
        let r3 := r2.dropWhile (fun c => decide (c = ' '))
        let d2 := r3.takeWhile Char.isDigit
        let r4 := r3.dropWhile Char.isDigit
        if d2 = [] then none
        else if singleTail r4 then some (digitsInt d1, digitsInt d2) else none
      | _ => none

/-- The tail `( \([^)]*\))?$` of `_byte_match_regexp_multi`. -/
def multiTailEnd (r : List Char) : Bool :=
  pyEnd r ||
    (match r with
     | ' ' :: '(' :: t =>
       (match t.dropWhile (fun c => !decide (c = ')')) with
        | ')' :: u => pyEnd u
        | _ => false)
     | _ => false)

/-- States of the recognizer for the repeated-pair part of
`_byte_match_regexp_multi`: the segment `( \[\d+ +\d+])*]( \([^)]*\))?$`. -/
inductive MSt where
  | stA | stB | stC | stC2 | stD | stE
  deriving DecidableEq

/-- Character-by-character recognizer for `( \[\d+ +\d+])*]( \([^)]*\))?$`,
entered in state `stA` right after the closing bracket of the first pair.
`stA` expects either the final bracket or the space starting another pair;
`stB` the opening bracket of a pair; `stC`/`stC2` the first and following
digits of the pair's first number; `stD` the separating spaces; `stE` the
second number and the pair's closing bracket. -/
def multiRun : MSt → List Char → Bool
  | .stA, ']' :: r => multiTailEnd r
  | .stA, ' ' :: r => multiRun .stB r
  | .stB, '[' :: r => multiRun .stC r
  | .stC, c :: r => if c.isDigit then multiRun .stC2 r else false
  | .stC2, c :: r =>
    if c.isDigit then multiRun .stC2 r
    else if c = ' ' then multiRun .stD r else false
  | .stD, c :: r =>
    if c = ' ' then multiRun .stD r
    else if c.isDigit then multiRun .stE r else false
  | .stE, c :: r =>
    if c.isDigit then multiRun .stE r
    else if c = ']' then multiRun .stA r else false
  | _, _ => false

/-- Matching against `_byte_match_regexp_multi`, i.e. the regular expression
`^byte match at \[\[(\d+) +(\d+)]( \[\d+ +\d+])*]( \([^)]*\))?$`;
returns the two integer groups (the first pair). -/
def parseByteMulti (l : List Char) : Option (Int × Int) :=
  match dropLit "byte match at [[".data l with
  | none => none
  | some r =>
    let d1 := r.takeWhile Char.isDigit
    let r1 := r.dropWhile Char.isDigit
    if d1 = [] then none
    else if r1.takeWhile (fun c => decide (c = ' ')) = [] then none
    else
      let r2 := r1.dropWhile (fun c => decide (c = ' '))
      let d2 := r2.takeWhile Char.isDigit
      let r3 := r2.dropWhile Char.isDigit
      if d2 = [] then none
      else
        match r3 with
        | ']' :: r4 => if multiRun .stA r4 then some (digitsInt d1, digitsInt d2) else none
        | _ => none

/-- Matching against `_extension_match`, i.e. `^extension match (.+)$`;
returns the characters of the single group. -/
def parseExt (l : List Char) : Option (List Char) :=
  match dropLit "extension match ".data l with
  | none => none
  | some r =>
    let p := r.takeWhile (fun c => !decide (c = '\n'))
    let q := r.dropWhile (fun c => !decide (c = '\n'))
    if p = [] then none
    else if pyEnd q then some p else none

/-- One iteration of the loop in `SiegfriedMatch.byte_match`: try the single
then the multi byte-match pattern on one basis entry and return the length
`int(match.group(2)) - int(match.group(1))`. -/
def byteEntry (b : String) : Option Int :=
  match parseByteSingle b.data with
  | some (s, e) => some (e - s)
  | none =>
    match parseByteMulti b.data with
    | some (s, e) => some (e - s)
    | none => none

/-- One iteration of the loop in `SiegfriedMatch.extension_match`. -/
def extEntry (b : String) : Option String :=
  match parseExt b.data with
  | some p => some (String.mk p)
  | none => none

/-- The `for ... in ...: if match: return ...` loop shape shared by
`byte_match` and `extension_match`: first entry yielding a value wins. -/
def firstSome (f : α → Option β) : List α → Option β
  | [] => none
  | x :: xs =>
    match f x with
    | some v => some v
    | none => firstSome f xs

/-- `SiegfriedIdentifier` from the source: an identifier used by the tool. -/
structure SiegfriedIdentifier where
  name : String
  details : String
  deriving DecidableEq

/-- `SiegfriedMatch` from the source. `id`, `version`, `match_class`, `URI`
and `permalink` are `Optional` in the source; `URI` and `permalink` are
URL types whose validity check is abstracted away (they are kept as the
transport strings). -/
structure SiegfriedMatch where
  ns : String
  id : Option String
  format : String
  version : Option String
  mime : String
  match_class : Option String
  basis : List String
  warning : List String
  URI : Option String
  permalink : Option String
  deriving DecidableEq

/-- `SiegfriedMatch.byte_match`: scan `basis` entries, return the length of
the first entry matched by the single or the multi byte-match pattern. -/
def SiegfriedMatch.byte_match (m : SiegfriedMatch) : Option Int :=
  firstSome byteEntry m.basis

/-- `SiegfriedMatch.extension_match`: scan `basis` entries, return the group
of the first entry matched by the extension pattern. -/
def SiegfriedMatch.extension_match (m : SiegfriedMatch) : Option String :=
  firstSome extEntry m.basis

/-- `SiegfriedMatch.extension_mismatch`: Python `"extension mismatch" in
self.warning`, a list membership test. -/
def SiegfriedMatch.extension_mismatch (m : SiegfriedMatch) : Bool :=
  m.warning.contains "extension mismatch"

/-- `SiegfriedMatch.filename_mismatch`: Python `"filename mismatch" in
self.warning`, a list membership test. -/
def SiegfriedMatch.filename_mismatch (m : SiegfriedMatch) : Bool :=
  m.warning.contains "filename mismatch"

/-- Python truthiness of an `Optional[str]` value: `None` and the empty
string are falsy. -/
def optTruthy : Option String → Bool
  | none => false
  | some s => !s.isEmpty

/-- Python `self.byte_match() or 0`: `None` and `0` are falsy and yield the
literal `0`; any other integer is returned unchanged. -/
def pyIntOr0 : Option Int → Int
  | none => 0
  | some n => if n = 0 then 0 else n

/-- `SiegfriedMatch.sort_tuple`: the 5-tuple of integers used as the sort key. -/
def SiegfriedMatch.sort_tuple (m : SiegfriedMatch) : Int × Int × Int × Int × Int :=
  (pyIntOr0 m.byte_match,
   if optTruthy m.extension_match then 1 else 0,
   if !m.format.isEmpty then 1 else 0,
   if optTruthy m.version then 1 else 0,
   if !m.mime.isEmpty then 1 else 0)

/-- Python `<` on 5-tuples of integers: lexicographic comparison. -/
def tupLt (a b : Int × Int × Int × Int × Int) : Bool :=
  decide (a.1 < b.1) ||
    (decide (a.1 = b.1) &&
      (decide (a.2.1 < b.2.1) ||
        (decide (a.2.1 = b.2.1) &&
          (decide (a.2.2.1 < b.2.2.1) ||
            (decide (a.2.2.1 = b.2.2.1) &&
              (decide (a.2.2.2.1 < b.2.2.2.1) ||
                (decide (a.2.2.2.1 = b.2.2.2.1) &&
                  decide (a.2.2.2.2 < b.2.2.2.2))))))))

/-- The comparison `list.sort(key=SiegfriedMatch.sort_tuple)` sorts by. -/
def ltMatch (a b : SiegfriedMatch) : Bool :=
  tupLt a.sort_tuple b.sort_tuple

/-- Stable insertion of an element into an ascending list: the element goes
after every element it does not strictly precede. -/
def insertStable (lt : α → α → Bool) (x : α) : List α → List α
  | [] => [x]
  | y :: ys => if lt x y then x :: y :: ys else y :: insertStable lt x ys

/-- Python's stable ascending sort (`list.sort` / `sorted`). A stable sort
is unique as a function of the comparison, so insertion sort is an exact
model of the source's sort call. -/
def pySort (lt : α → α → Bool) (l : List α) : List α :=
  l.foldl (fun acc x => insertStable lt x acc) []

/-- Python `sorted(l, key=k, reverse=True)`: the stable descending sort,
equal to reversing the input, stable-ascending sorting, and reversing. -/
def pySortDesc (lt : α → α → Bool) (l : List α) : List α :=
  (pySort lt l.reverse).reverse

/-- `SiegfriedFile` from the source; `modified` is a datetime kept as its
transport string. -/
structure SiegfriedFile where
  filename : String
  filesize : Int
  modified : String
  errors : String
  «matches» : List SiegfriedMatch
  deriving DecidableEq

/-- `SiegfriedFile.best_match`: keep matches with truthy `id`, sort
ascending by `sort_tuple`, return the last one (`matches[-1]`) if any. -/
def SiegfriedFile.best_match (f : SiegfriedFile) : Option SiegfriedMatch :=
  (pySort ltMatch (f.matches.filter (fun m => optTruthy m.id))).getLast?

/-- `SiegfriedFile.best_matches`: keep matches with truthy `id`, sorted
descending by `sort_tuple`. -/
def SiegfriedFile.best_matches (f : SiegfriedFile) : List SiegfriedMatch :=
  pySortDesc ltMatch (f.matches.filter (fun m => optTruthy m.id))

/-- `SiegfriedResult` from the source; `scandate` and `created` are
datetimes kept as their transport strings. -/
structure SiegfriedResult where
  siegfried : String
  scandate : String
  signature : String
  created : String
  identifiers : List SiegfriedIdentifier
  files : List SiegfriedFile
  deriving DecidableEq

/-- JSON values, as far as the decode step of this module observes them. -/
inductive JVal where
  | null
  | str (s : String)
  | int (n : Int)
  | arr (xs : List JVal)
  | obj (kvs : List (String × JVal))

/-- Failures of the decode step. `validation` is a pydantic
`ValidationError`, a subclass of `ValueError`, which the calling code
catches and re-raises as `IdentificationError` — the spec's `DecodeError`.
`pyError` is any other exception (`AttributeError`, `KeyError`) raised
inside the `unknown_id` validator; pydantic does not convert those, so
they escape the decode as a plain crash. -/
inductive DecErr where
  | validation (msg : String)
  | pyError (msg : String)
  deriving DecidableEq

/-- First-occurrence lookup of a key in a decoded JSON object. -/
def lookupKey : List (String × JVal) → String → Option JVal
  | [], _ => none
  | (k, v) :: rest, key => if k = key then some v else lookupKey rest key

/-- Encoding of an `Optional[str]` field value. -/
def jOptStr : Option String → JVal
  | none => JVal.null
  | some s => JVal.str s

/-- The dict produced by `{**data, "id": ..., "basis": ..., "warning": ...}`
in `SiegfriedMatch.unknown_id`: the three keys are overridden, every other
entry is kept. -/
def overrideIBW (kvs : List (String × JVal)) (i : Option String)
    (b w : List String) : List (String × JVal) :=
  (kvs.filter (fun kv => !(decide (kv.1 = "id") || decide (kv.1 = "basis") || decide (kv.1 = "warning")))) ++
    [("id", jOptStr i), ("basis", JVal.arr (b.map JVal.str)), ("warning", JVal.arr (w.map JVal.str))]

/-- The `mode="before"` validator `SiegfriedMatch.unknown_id` on a dict.
`data["id"]` raises `KeyError` when the key is absent; `.lower()` /
`.strip()` raise `AttributeError` when the value is not a string (in
particular when `basis` or `warning` arrive as an array, or `id` as null). -/
def matchValidated (kvs : List (String × JVal)) : Except DecErr (List (String × JVal)) :=
  match lookupKey kvs "id" with
  | none => Except.error (DecErr.pyError "KeyError: id")
  | some (JVal.str ids) =>
    match lookupKey kvs "basis" with
    | none => Except.error (DecErr.pyError "KeyError: basis")
    | some (JVal.str bs) =>
      match lookupKey kvs "warning" with
      | none => Except.error (DecErr.pyError "KeyError: warning")
      | some (JVal.str ws) =>
        Except.ok (overrideIBW kvs (normalizeId ids) (splitField bs) (splitField ws))
      | some _ => Except.error (DecErr.pyError "AttributeError: strip")
    | some _ => Except.error (DecErr.pyError "AttributeError: strip")
  | some _ => Except.error (DecErr.pyError "AttributeError: lower")

/-- A required `str` field. -/
def reqStr (kvs : List (String × JVal)) (key : String) : Except DecErr String :=
  match lookupKey kvs key with
  | some (JVal.str s) => Except.ok s
  | some _ => Except.error (DecErr.validation (key ++ ": string expected"))
  | none => Except.error (DecErr.validation (key ++ ": field required"))

/-- A required `int` field. -/
def reqInt (kvs : List (String × JVal)) (key : String) : Except DecErr Int :=
  match lookupKey kvs key with
  | some (JVal.int n) => Except.ok n
  | some _ => Except.error (DecErr.validation (key ++ ": integer expected"))
  | none => Except.error (DecErr.validation (key ++ ": field required"))

/-- A required `Optional[str]` field (no default): null becomes `none`. -/
def reqOptStr (kvs : List (String × JVal)) (key : String) : Except DecErr (Option String) :=
  match lookupKey kvs key with
  | some JVal.null => Except.ok none
  | some (JVal.str s) => Except.ok (some s)
  | some _ => Except.error (DecErr.validation (key ++ ": string or null expected"))
  | none => Except.error (DecErr.validation (key ++ ": field required"))

/-- An `Optional[str]` field with default `None`: absent or null is `none`. -/
def optStrField (kvs : List (String × JVal)) (key : String) : Except DecErr (Option String) :=
  match lookupKey kvs key with
  | some JVal.null => Except.ok none
  | some (JVal.str s) => Except.ok (some s)
  | some _ => Except.error (DecErr.validation (key ++ ": string or null expected"))
  | none => Except.ok none

/-- Decode every element of a JSON array. -/
def decodeList (dec : JVal → Except DecErr α) : List JVal → Except DecErr (List α)
  | [] => Except.ok []
  | v :: vs => do
    let a ← dec v
    let as ← decodeList dec vs
    Except.ok (a :: as)

/-- A required `list[str]` field. -/
def reqStrList (kvs : List (String × JVal)) (key : String) : Except DecErr (List String) :=
  match lookupKey kvs key with
  | some (JVal.arr l) => decodeList (fun v => match v with
      | JVal.str s => Except.ok s
      | _ => Except.error (DecErr.validation (key ++ ": string expected"))) l
  | some _ => Except.error (DecErr.validation (key ++ ": list expected"))
  | none => Except.error (DecErr.validation (key ++ ": field required"))

/-- The field-validation stage of `SiegfriedMatch.model_validate`, run on
the dict returned by the `unknown_id` validator. `match_class` is
populated from its alias `class`; unknown keys are ignored (pydantic's
default `extra` behaviour). -/
def buildMatch (kvs : List (String × JVal)) : Except DecErr SiegfriedMatch := do
  let ns ← reqStr kvs "ns"
  let idv ← reqOptStr kvs "id"
  let fmt ← reqStr kvs "format"
  let ver ← optStrField kvs "version"
  let mime ← reqStr kvs "mime"
  let mc ← optStrField kvs "class"
  let bas ← reqStrList kvs "basis"
  let war ← reqStrList kvs "warning"
  let uri ← optStrField kvs "URI"
  let pl ← optStrField kvs "permalink"
  Except.ok ⟨ns, idv, fmt, ver, mime, mc, bas, war, uri, pl⟩

/-- Decoding one match object: the `unknown_id` before-validator, then
field validation. A non-dict input passes through the validator unchanged
and is rejected by pydantic as a validation error. -/
def decodeMatch : JVal → Except DecErr SiegfriedMatch
  | JVal.obj kvs => do
    let kvs2 ← matchValidated kvs
    buildMatch kvs2
  | _ => Except.error (DecErr.validation "match: dict expected")

/-- Decoding one identifier object (`name`, `details`; extras ignored). -/
def decodeIdentifier : JVal → Except DecErr SiegfriedIdentifier
  | JVal.obj kvs => do
    let n ← reqStr kvs "name"
    let d ← reqStr kvs "details"
    Except.ok ⟨n, d⟩
  | _ => Except.error (DecErr.validation "identifier: dict expected")

/-- Pydantic's validation of a list field: the elements are validated in
order and their validation errors are aggregated (validation continues
past an invalid element), but a raw exception raised inside a nested
validator propagates immediately from the point it is reached. A
validation error on an earlier element therefore does not mask a crash on
a later one, and vice versa a crash on an earlier element preempts
everything after it. -/
def decodeListAgg (dec : JVal → Except DecErr α) : List JVal → Except DecErr (List α)
  | [] => Except.ok []
  | v :: vs =>
    match dec v with
    | Except.error (DecErr.pyError msg) => Except.error (DecErr.pyError msg)
    | Except.error (DecErr.validation msg) =>
      (match decodeListAgg dec vs with
       | Except.error (DecErr.pyError msg2) => Except.error (DecErr.pyError msg2)
       | _ => Except.error (DecErr.validation msg))
    | Except.ok a =>
      (match decodeListAgg dec vs with
       | Except.ok as => Except.ok (a :: as)
       | Except.error e => Except.error e)

/-- A required list-of-models field: the value must be an array, whose
elements are validated with pydantic's aggregate semantics. -/
def decArrField (dec : JVal → Except DecErr α) (kvs : List (String × JVal))
    (key : String) : Except DecErr (List α) :=
  match lookupKey kvs key with
  | some (JVal.arr l) => decodeListAgg dec l
  | some _ => Except.error (DecErr.validation (key ++ ": list expected"))
  | none => Except.error (DecErr.validation (key ++ ": field required"))

/-- Combine the field results of a file object the way pydantic raises:
every field was validated (so a crash in the `matches` field has already
propagated through `decodeListAgg` and wins here), and otherwise any
validation failure among the fields is aggregated into one validation
error. Scalar `str`/`int` fields cannot crash. -/
def assembleFile (rfn : Except DecErr String) (rfs : Except DecErr Int)
    (rmo rer : Except DecErr String) (rms : Except DecErr (List SiegfriedMatch)) :
    Except DecErr SiegfriedFile :=
  match rms with
  | Except.error (DecErr.pyError msg) => Except.error (DecErr.pyError msg)
  | _ =>
    match rfn, rfs, rmo, rer, rms with
    | Except.ok fn, Except.ok fs, Except.ok mo, Except.ok er, Except.ok ms =>
      Except.ok ⟨fn, fs, mo, er, ms⟩
    | _, _, _, _, _ => Except.error (DecErr.validation "file: invalid or missing fields")

/-- Decoding one file object. `SiegfriedFile` sets no `extra`
configuration, so unknown keys are ignored (pydantic's default). All
declared fields are validated — in particular the `matches` list is
validated even when a scalar field is missing or ill-typed, so a crash
raised by `SiegfriedMatch.unknown_id` propagates instead of the
validation error. -/
def decodeFile : JVal → Except DecErr SiegfriedFile
  | JVal.obj kvs =>
    assembleFile (reqStr kvs "filename") (reqInt kvs "filesize")
      (reqStr kvs "modified") (reqStr kvs "errors")
      (decArrField decodeMatch kvs "matches")
  | _ => Except.error (DecErr.validation "file: dict expected")

/-- The declared top-level keys of `SiegfriedResult`. -/
def resultKeys : List String :=
  ["siegfried", "scandate", "signature", "created", "identifiers", "files"]

/-- Combine the field results of a scan-result object the way pydantic
raises under `extra="forbid"`: every field was validated first, so a
crash raised while validating `identifiers` or `files` (only `files` can
actually crash, via `unknown_id`) propagates and preempts everything;
otherwise the extra-key errors and the field validation errors are
aggregated into the single `ValidationError` raised at the end. -/
def assembleResult (extraOk : Bool) (rsie rsd rsig rcr : Except DecErr String)
    (rids : Except DecErr (List SiegfriedIdentifier))
    (rfls : Except DecErr (List SiegfriedFile)) : Except DecErr SiegfriedResult :=
  match rids with
  | Except.error (DecErr.pyError msg) => Except.error (DecErr.pyError msg)
  | _ =>
    match rfls with
    | Except.error (DecErr.pyError msg) => Except.error (DecErr.pyError msg)
    | _ =>
      if extraOk then
        match rsie, rsd, rsig, rcr, rids, rfls with
        | Except.ok sie, Except.ok sd, Except.ok sig, Except.ok cr,
          Except.ok ids, Except.ok fls =>
          Except.ok ⟨sie, sd, sig, cr, ids, fls⟩
        | _, _, _, _, _, _ =>
          Except.error (DecErr.validation "invalid or missing fields")
      else Except.error (DecErr.validation "extra fields forbidden")

/-- Decoding a scan result. `SiegfriedResult` sets
`model_config = ConfigDict(extra="forbid")`, so an unrecognized top-level
key makes decoding fail — but the unrecognized-key error is only part of
the aggregated `ValidationError`, raised after the fields have been
validated: a raw exception from the nested `unknown_id` validator
propagates first. -/
def decodeResult : JVal → Except DecErr SiegfriedResult
  | JVal.obj kvs =>
    assembleResult (kvs.all (fun kv => decide (kv.1 ∈ resultKeys)))
      (reqStr kvs "siegfried") (reqStr kvs "scandate") (reqStr kvs "signature")
      (reqStr kvs "created") (decArrField decodeIdentifier kvs "identifiers")
      (decArrField decodeFile kvs "files")
  | _ => Except.error (DecErr.validation "result: dict expected")

/-- `model_dump_json` of a match: every field is emitted under its Python
attribute name (`by_alias` defaults to false, so `match_class`, not
`class`), and the list fields are emitted as JSON arrays. -/
def encodeMatch (m : SiegfriedMatch) : JVal :=
  JVal.obj
    [("ns", JVal.str m.ns), ("id", jOptStr m.id), ("format", JVal.str m.format),
     ("version", jOptStr m.version), ("mime", JVal.str m.mime),
     ("match_class", jOptStr m.match_class),
     ("basis", JVal.arr (m.basis.map JVal.str)),
     ("warning", JVal.arr (m.warning.map JVal.str)),
     ("URI", jOptStr m.URI), ("permalink", jOptStr m.permalink)]

/-- `model_dump_json` of an identifier. -/
def encodeIdentifier (i : SiegfriedIdentifier) : JVal :=
  JVal.obj [("name", JVal.str i.name), ("details", JVal.str i.details)]

/-- `model_dump_json` of a file. -/
def encodeFile (f : SiegfriedFile) : JVal :=
  JVal.obj
    [("filename", JVal.str f.filename), ("filesize", JVal.int f.filesize),
     ("modified", JVal.str f.modified), ("errors", JVal.str f.errors),
     ("matches", JVal.arr (f.matches.map encodeMatch))]

/-- `model_dump_json` of a scan result. -/
def encodeResult (r : SiegfriedResult) : JVal :=
  JVal.obj
    [("siegfried", JVal.str r.siegfried), ("scandate", JVal.str r.scandate),
     ("signature", JVal.str r.signature), ("created", JVal.str r.created),
     ("identifiers", JVal.arr (r.identifiers.map encodeIdentifier)),
     ("files", JVal.arr (r.files.map encodeFile))]

instance [DecidableEq ε] [DecidableEq α] : DecidableEq (Except ε α) := fun x y =>
  match x, y with
  | Except.ok a, Except.ok b => decidable_of_iff (a = b) (by simp)
  | Except.error e, Except.error f => decidable_of_iff (e = f) (by simp)
  | Except.ok _, Except.error _ => isFalse (by simp)
  | Except.error _, Except.ok _ => isFalse (by simp)

/-- A match whose basis has a weaker byte-match entry before the
`byte match at 10, 42` entry. -/
def exC3 : SiegfriedMatch :=
  ⟨"pronom", some "fmt/1", "fmt", none, "", none,
   ["byte match at 0, 5", "byte match at 10, 42"], [], none, none⟩

/-- A match whose only basis entry is an extension match followed by a
parenthetical annotation. -/
def exC6 : SiegfriedMatch :=
  ⟨"pronom", some "fmt/276", "Acrobat PDF", none, "application/pdf", none,
   ["extension match .pdf (note)"], [], none, none⟩

/-- A match whose warnings contain the mismatch phrases only as proper
substrings of longer entries. -/
def exC8 : SiegfriedMatch :=
  ⟨"pronom", some "fmt/1", "fmt", none, "", none, [],
   ["extension mismatch detected", "a filename mismatch here"], none, none⟩

/-- The spec's `best_match` example: an id-less match with strong byte
evidence next to an id-bearing match with weak byte evidence. -/
def exC1file : SiegfriedFile :=
  ⟨"a.pdf", 10, "2024-01-01T00:00:00", "",
   [⟨"pronom", none, "fmt", none, "", none, ["byte match at 0, 100"], [], none, none⟩,
    ⟨"pronom", some "fmt/1", "fmt", none, "", none, ["byte match at 0, 5"], [], none, none⟩]⟩

/-- Two matches identical in every signal except byte-match length 10 vs 50. -/
def exC2a : SiegfriedMatch :=
  ⟨"pronom", some "fmt/1", "fmt", some "1.0", "text/plain", none,
   ["byte match at 0, 10", "extension match .txt"], [], none, none⟩

/-- See `exC2a`. -/
def exC2b : SiegfriedMatch :=
  ⟨"pronom", some "fmt/1", "fmt", some "1.0", "text/plain", none,
   ["byte match at 0, 50", "extension match .txt"], [], none, none⟩

/-- A transport match dict whose `id` is the "unknown" sentinel with mixed
case and surrounding whitespace. -/
def exC4kvs : List (String × JVal) :=
  [("ns", JVal.str "pronom"), ("id", JVal.str " UnKnown "), ("format", JVal.str "fmt"),
   ("mime", JVal.str ""), ("basis", JVal.str ""), ("warning", JVal.str "")]

/-- The match `exC4kvs` decodes to. -/
def exC4match : SiegfriedMatch :=
  ⟨"pronom", none, "fmt", none, "", none, [], [], none, none⟩

/-- A scan-result payload whose file-level object carries the
unrecognized key `unexpected`. -/
def exC5json : JVal :=
  JVal.obj
    [("siegfried", JVal.str "1.11.0"), ("scandate", JVal.str "2024-01-01T00:00:00"),
     ("signature", JVal.str "default.sig"), ("created", JVal.str "2023-01-01T00:00:00"),
     ("identifiers", JVal.arr [JVal.obj [("name", JVal.str "pronom"), ("details", JVal.str "d")]]),
     ("files", JVal.arr
       [JVal.obj
         [("filename", JVal.str "a.pdf"), ("filesize", JVal.int 10),
          ("modified", JVal.str "2024-01-01T00:00:00"), ("errors", JVal.str ""),
          ("matches", JVal.arr []), ("unexpected", JVal.str "surprise")]])]

/-- The value `exC5json` decodes to (the extra file-level key is dropped). -/
def exC5result : SiegfriedResult :=
  ⟨"1.11.0", "2024-01-01T00:00:00", "default.sig", "2023-01-01T00:00:00",
   [⟨"pronom", "d"⟩],
   [⟨"a.pdf", 10, "2024-01-01T00:00:00", "", []⟩]⟩

/-- A transport match dict with `basis` in array form. -/
def exC7kvs : List (String × JVal) :=
  [("ns", JVal.str "pronom"), ("id", JVal.str "fmt/1"), ("format", JVal.str "fmt"),
   ("mime", JVal.str ""), ("basis", JVal.arr [JVal.str "extension match .pdf"]),
   ("warning", JVal.str "")]

/-- A transport match dict with `basis` in single-string form. -/
def exC7kvsStr : List (String × JVal) :=
  [("ns", JVal.str "pronom"), ("id", JVal.str "fmt/1"), ("format", JVal.str "fmt"),
   ("mime", JVal.str ""), ("basis", JVal.str " extension match .pdf ; ;byte match at 0, 5 "),
   ("warning", JVal.str "")]

/-- A well-formed scan result containing a match; encoding and re-decoding
it exercises the round-trip. -/
def exC9 : SiegfriedResult :=
  ⟨"1.11.0", "2024-01-01T00:00:00", "default.sig", "2023-01-01T00:00:00",
   [⟨"pronom", "d"⟩],
   [⟨"a.pdf", 10, "2024-01-01T00:00:00", "",
     [⟨"pronom", some "fmt/276", "Acrobat PDF", none, "application/pdf", none,
       ["extension match .pdf"], [], none, none⟩]⟩]⟩

/-- A scan result with no matches at all. -/
def exC9empty : SiegfriedResult :=
  ⟨"1.11.0", "2024-01-01T00:00:00", "default.sig", "2023-01-01T00:00:00",
   [⟨"pronom", "d"⟩],
   [⟨"a.pdf", 10, "2024-01-01T00:00:00", "", []⟩]⟩

/-- A file containing a single id-less match. -/
def exC10file : SiegfriedFile :=
  ⟨"a.pdf", 10, "2024-01-01T00:00:00", "",
   [⟨"pronom", none, "fmt", none, "", none, ["byte match at 0, 100"], [], none, none⟩]⟩

/-- The ranking key as the claim states it: byte-match length with absent
treated as 0, then presence of an extension match, then non-emptiness of
`format`, `version` and `mime`, as 1/0 flags. Written from the spec's
words, to be compared with `SiegfriedMatch.sort_tuple`. -/
def specRankTuple (m : SiegfriedMatch) : Int × Int × Int × Int × Int :=
  (m.byte_match.getD 0,
   if m.extension_match.isSome then 1 else 0,
   if m.format = "" then 0 else 1,
   if m.version.getD "" = "" then 0 else 1,
   if m.mime = "" then 0 else 1)

/-- The declared keys of `SiegfriedFile`. -/
def fileKeys : List String :=
  ["filename", "filesize", "modified", "errors", "matches"]

/-- A match whose first byte-pattern basis entry is
`byte match at 10, 42 (regex)`. -/
def exC3w : SiegfriedMatch :=
  ⟨"pronom", some "fmt/1", "fmt", none, "", none,
   ["extension match .pdf", "byte match at 10, 42 (regex)"], [], none, none⟩

/-- A match whose first extension-pattern basis entry is
`extension match .docx`. -/
def exC6w : SiegfriedMatch :=
  ⟨"pronom", some "fmt/40", "Word", none, "", none,
   ["byte match at 0, 5", "extension match .docx"], [], none, none⟩

/-- A transport match dict whose `id` is whitespace-only. -/
def exC10kvs : List (String × JVal) :=
  [("ns", JVal.str "pronom"), ("id", JVal.str "   "), ("format", JVal.str "fmt"),
   ("mime", JVal.str ""), ("basis", JVal.str ""), ("warning", JVal.str "")]

/-- The match `exC10kvs` decodes to. -/
def exC10match : SiegfriedMatch :=
  ⟨"pronom", none, "fmt", none, "", none, [], [], none, none⟩

/-- An id-less match with strong byte evidence (the single match of
`exC10file`). -/
def exC10m : SiegfriedMatch :=
  ⟨"pronom", none, "fmt", none, "", none, ["byte match at 0, 100"], [], none, none⟩

/-- A batch-level payload with the unrecognized key `bogus`. -/
def exC5batch : List (String × JVal) :=
  [("siegfried", JVal.str "1.11.0"), ("scandate", JVal.str "2024-01-01T00:00:00"),
   ("signature", JVal.str "default.sig"), ("created", JVal.str "2023-01-01T00:00:00"),
   ("identifiers", JVal.arr []), ("files", JVal.arr []), ("bogus", JVal.int 1)]

/-- A file-level payload without extra keys. -/
def exC5fkvs : List (String × JVal) :=
  [("filename", JVal.str "a.pdf"), ("filesize", JVal.int 10),
   ("modified", JVal.str "2024-01-01T00:00:00"), ("errors", JVal.str ""),
   ("matches", JVal.arr [])]

/-- The match `exC7kvsStr` decodes to. -/
def exC7match : SiegfriedMatch :=
  ⟨"pronom", some "fmt/1", "fmt", none, "", none,
   ["extension match .pdf", "byte match at 0, 5"], [], none, none⟩

theorem takeWhile_append_all (p : Char → Bool) (l1 l2 : List Char)
    (h : ∀ c ∈ l1, p c = true) :
    (l1 ++ l2).takeWhile p = l1 ++ l2.takeWhile p := by
  induction l1 with
  | nil => simp
  | cons c cs ih =>
    simp only [List.cons_append, List.takeWhile_cons, h c (by simp)]
    simp [ih (fun d hd => h d (by simp [hd]))]

theorem dropWhile_append_all (p : Char → Bool) (l1 l2 : List Char)
    (h : ∀ c ∈ l1, p c = true) :
    (l1 ++ l2).dropWhile p = l2.dropWhile p := by
  induction l1 with
  | nil => simp
  | cons c cs ih =>
    simp only [List.cons_append, List.dropWhile_cons, h c (by simp)]
    simp [ih (fun d hd => h d (by simp [hd]))]

theorem takeWhile_all (p : Char → Bool) (l : List Char) (h : ∀ c ∈ l, p c = true) :
    l.takeWhile p = l := by
  have := takeWhile_append_all p l [] h
  simpa using this

theorem dropWhile_all (p : Char → Bool) (l : List Char) (h : ∀ c ∈ l, p c = true) :
    l.dropWhile p = [] := by
  have := dropWhile_append_all p l [] h
  simpa using this

theorem firstSome_cons_some (f : α → Option β) (x : α) (xs : List α) (v : β)
    (h : f x = some v) : firstSome f (x :: xs) = some v := by
  simp [firstSome, h]

theorem firstSome_cons_none (f : α → Option β) (x : α) (xs : List α)
    (h : f x = none) : firstSome f (x :: xs) = firstSome f xs := by
  simp [firstSome, h]

theorem firstSome_append_none (f : α → Option β) (pre : List α) (l : List α)
    (h : ∀ b ∈ pre, f b = none) :
    firstSome f (pre ++ l) = firstSome f l := by
  induction pre with
  | nil => simp
  | cons b bs ih =>
    rw [List.cons_append, firstSome_cons_none f b _ (h b (by simp))]
    exact ih (fun d hd => h d (by simp [hd]))

theorem firstSome_eq_some (f : α → Option β) (l : List α) (v : β)
    (h : firstSome f l = some v) : ∃ x ∈ l, f x = some v := by
  induction l with
  | nil => simp [firstSome] at h
  | cons x xs ih =>
    by_cases hx : ∃ w, f x = some w
    · obtain ⟨w, hw⟩ := hx
      rw [firstSome_cons_some f x xs w hw] at h
      exact ⟨x, by simp, by rw [hw, h]⟩
    · have hx0 : f x = none := by
        cases hfx : f x with
        | none => rfl
        | some w => exact absurd ⟨w, hfx⟩ hx
      rw [firstSome_cons_none f x xs hx0] at h
      obtain ⟨y, hy, hfy⟩ := ih h
      exact ⟨y, by simp [hy], hfy⟩

/-- Characterization of the lexicographic tuple comparison as a proposition. -/
theorem tupLt_iff (a b : Int × Int × Int × Int × Int) :
    tupLt a b = true ↔
      (a.1 < b.1 ∨ (a.1 = b.1 ∧ (a.2.1 < b.2.1 ∨ (a.2.1 = b.2.1 ∧
        (a.2.2.1 < b.2.2.1 ∨ (a.2.2.1 = b.2.2.1 ∧
          (a.2.2.2.1 < b.2.2.2.1 ∨ (a.2.2.2.1 = b.2.2.2.1 ∧
            a.2.2.2.2 < b.2.2.2.2)))))))) := by
  simp [tupLt]

theorem tupLt_irrefl (a : Int × Int × Int × Int × Int) : tupLt a a = false := by
  rw [Bool.eq_false_iff]
  intro h
  rw [tupLt_iff] at h
  omega

theorem tupLt_asymm (a b : Int × Int × Int × Int × Int) (h : tupLt a b = true) :
    tupLt b a = false := by
  rw [Bool.eq_false_iff]
  intro h2
  rw [tupLt_iff] at h h2
  omega

theorem tupLt_not_trans (a b c : Int × Int × Int × Int × Int)
    (h1 : tupLt b a = false) (h2 : tupLt c b = false) : tupLt c a = false := by
  rw [Bool.eq_false_iff] at h1 h2 ⊢
  intro h
  rw [tupLt_iff] at h
  simp only [ne_eq, tupLt_iff] at h1 h2
  omega

theorem tupLt_first (a b : Int × Int × Int × Int × Int) (h : a.1 < b.1) :
    tupLt a b = true := by
  rw [tupLt_iff]
  exact Or.inl h

theorem mem_insertStable (lt : α → α → Bool) (x a : α) (l : List α) :
    a ∈ insertStable lt x l ↔ a = x ∨ a ∈ l := by
  induction l with
  | nil => simp [insertStable]
  | cons y ys ih =>
    simp only [insertStable]
    by_cases h : lt x y = true
    · simp [if_pos h]
    · rw [if_neg h]
      simp only [List.mem_cons, ih]
      tauto

theorem length_insertStable (lt : α → α → Bool) (x : α) (l : List α) :
    (insertStable lt x l).length = l.length + 1 := by
  induction l with
  | nil => simp [insertStable]
  | cons y ys ih =>
    simp only [insertStable]
    by_cases h : lt x y = true
    · simp [h]
    · rw [if_neg h]
      simp [ih]

theorem foldl_insert_mem (lt : α → α → Bool) (l : List α) (acc : List α) (a : α) :
    a ∈ l.foldl (fun acc x => insertStable lt x acc) acc ↔ a ∈ acc ∨ a ∈ l := by
  induction l generalizing acc with
  | nil => simp
  | cons y ys ih =>
    simp only [List.foldl_cons]
    rw [ih, mem_insertStable]
    simp
    tauto

theorem mem_pySort (lt : α → α → Bool) (l : List α) (a : α) :
    a ∈ pySort lt l ↔ a ∈ l := by
  rw [pySort, foldl_insert_mem]
  simp

theorem foldl_insert_length (lt : α → α → Bool) (l : List α) (acc : List α) :
    (l.foldl (fun acc x => insertStable lt x acc) acc).length = acc.length + l.length := by
  induction l generalizing acc with
  | nil => simp
  | cons y ys ih =>
    simp only [List.foldl_cons]
    rw [ih, length_insertStable, List.length_cons]
    omega

theorem length_pySort (lt : α → α → Bool) (l : List α) :
    (pySort lt l).length = l.length := by
  rw [pySort, foldl_insert_length]
  simp

theorem pySort_eq_nil_iff (lt : α → α → Bool) (l : List α) :
    pySort lt l = [] ↔ l = [] := by
  constructor
  · intro h
    have := length_pySort lt l
    rw [h] at this
    simpa using List.length_eq_zero.mp this.symm
  · intro h
    simp [h, pySort]

theorem pairwise_insertStable (lt : α → α → Bool)
    (hasym : ∀ a b, lt a b = true → lt b a = false)
    (htr : ∀ a b c, lt b a = false → lt c b = false → lt c a = false)
    (x : α) (l : List α)
    (h : l.Pairwise (fun a b => lt b a = false)) :
    (insertStable lt x l).Pairwise (fun a b => lt b a = false) := by
  induction l with
  | nil => simp [insertStable]
  | cons y ys ih =>
    rw [List.pairwise_cons] at h
    obtain ⟨hy, hys⟩ := h
    simp only [insertStable]
    by_cases hlt : lt x y = true
    · rw [if_pos hlt, List.pairwise_cons]
      constructor
      · intro z hz
        rcases List.mem_cons.mp hz with hz | hz
        · rw [hz]
          exact hasym x y hlt
        · exact htr x y z (hasym x y hlt) (hy z hz)
      · rw [List.pairwise_cons]
        exact ⟨hy, hys⟩
    · rw [if_neg hlt, List.pairwise_cons]
      constructor
      · intro z hz
        rcases (mem_insertStable lt x z ys).mp hz with hz | hz
        · rw [hz]
          exact Bool.eq_false_iff.mpr hlt
        · exact hy z hz
      · exact ih hys

theorem pairwise_pySort (lt : α → α → Bool)
    (hasym : ∀ a b, lt a b = true → lt b a = false)
    (htr : ∀ a b c, lt b a = false → lt c b = false → lt c a = false)
    (l : List α) :
    (pySort lt l).Pairwise (fun a b => lt b a = false) := by
  rw [pySort]
  have : ∀ acc : List α, acc.Pairwise (fun a b => lt b a = false) →
      (l.foldl (fun acc x => insertStable lt x acc) acc).Pairwise (fun a b => lt b a = false) := by
    induction l with
    | nil => intro acc h; simpa using h
    | cons y ys ih =>
      intro acc h
      simp only [List.foldl_cons]
      exact ih _ (pairwise_insertStable lt hasym htr y acc h)
  exact this [] (by simp)

theorem pairwise_getLast_max (lt : α → α → Bool)
    (hirr : ∀ a, lt a a = false) (l : List α) (b : α)
    (hp : l.Pairwise (fun a b => lt b a = false))
    (hl : l.getLast? = some b) :
    ∀ x ∈ l, lt b x = false := by
  induction l with
  | nil => simp at hl
  | cons y ys ih =>
    rw [List.pairwise_cons] at hp
    obtain ⟨hy, hys⟩ := hp
    cases ys with
    | nil =>
      simp only [List.getLast?_singleton, Option.some.injEq] at hl
      intro x hx
      rcases List.mem_cons.mp hx with hx | hx
      · rw [hx, ← hl]
        exact hirr y
      · simp at hx
    | cons z zs =>
      have hl2 : (z :: zs).getLast? = some b := by
        rw [← hl]
        rfl
      intro x hx
      rcases List.mem_cons.mp hx with hx | hx
      · have hb : b ∈ z :: zs := List.mem_of_mem_getLast? hl2
        rw [hx]
        exact hy b hb
      · exact ih hys hl2 x hx

theorem pyIsSpace_pyToLower (c : Char) : pyIsSpace (pyToLower c) = pyIsSpace c := by
  unfold pyToLower
  split <;> rfl

theorem dropWhile_map_pyToLower (l : List Char) :
    (l.map pyToLower).dropWhile pyIsSpace = (l.dropWhile pyIsSpace).map pyToLower := by
  induction l with
  | nil => simp
  | cons c cs ih =>
    simp only [List.map_cons, List.dropWhile_cons, pyIsSpace_pyToLower]
    by_cases h : pyIsSpace c = true
    · simp [h, ih]
    · simp [h]

theorem pyStripL_pyLowerL (l : List Char) :
    pyStripL (pyLowerL l) = pyLowerL (pyStripL l) := by
  unfold pyStripL pyLowerL
  rw [dropWhile_map_pyToLower, ← List.map_reverse, dropWhile_map_pyToLower, ← List.map_reverse]

theorem stringMk_inj (l1 l2 : List Char) (h : String.mk l1 = String.mk l2) : l1 = l2 := by
  cases h
  rfl

/-- The normalized id is never the literal string "unknown". -/
theorem normalizeId_ne_unknown (s : String) : normalizeId s ≠ some "unknown" := by
  unfold normalizeId
  by_cases h1 : pyStripL (pyLowerL s.data) = "unknown".data
  · simp [h1]
  · rw [if_neg h1]
    by_cases h2 : pyStripL s.data = []
    · simp [h2]
    · rw [if_neg h2]
      intro hcon
      apply h1
      have hs : pyStripL s.data = "unknown".data := by
        have := Option.some.inj hcon
        exact stringMk_inj _ _ (by rw [this])
      rw [pyStripL_pyLowerL, hs]
      rfl

/-- An id equal to "unknown" after trimming and lowercasing normalizes to
absent. -/
theorem normalizeId_unknown (s : String)
    (h : pyLowerL (pyStripL s.data) = "unknown".data) : normalizeId s = none := by
  unfold normalizeId
  rw [if_pos (by rw [pyStripL_pyLowerL, h])]

/-- An id that is empty or whitespace-only normalizes to absent. -/
theorem normalizeId_empty (s : String) (h : pyStripL s.data = []) :
    normalizeId s = none := by
  unfold normalizeId
  by_cases h1 : pyStripL (pyLowerL s.data) = "unknown".data
  · rw [if_pos h1]
  · rw [if_neg h1, if_pos h]

theorem ltMatch_asymm (a b : SiegfriedMatch) (h : ltMatch a b = true) :
    ltMatch b a = false :=
  tupLt_asymm _ _ h

theorem ltMatch_not_trans (a b c : SiegfriedMatch)
    (h1 : ltMatch b a = false) (h2 : ltMatch c b = false) : ltMatch c a = false :=
  tupLt_not_trans _ _ _ h1 h2

theorem ltMatch_irrefl (a : SiegfriedMatch) : ltMatch a a = false :=
  tupLt_irrefl _

theorem ebind_ok (a : α) (f : α → Except ε β) :
    (Except.ok a >>= f) = f a := rfl

theorem ebind_err (e : ε) (f : α → Except ε β) :
    ((Except.error e : Except ε α) >>= f) = Except.error e := rfl

theorem ebind_eq_ok {x : Except ε α} {f : α → Except ε β} {b : β}
    (h : (x >>= f) = Except.ok b) : ∃ a, x = Except.ok a ∧ f a = Except.ok b := by
  cases x with
  | ok a => exact ⟨a, rfl, h⟩
  | error e =>
    rw [ebind_err] at h
    exact absurd h (by simp)

theorem lookupKey_append (l1 l2 : List (String × JVal)) (k : String) :
    lookupKey (l1 ++ l2) k =
      (match lookupKey l1 k with
       | some v => some v
       | none => lookupKey l2 k) := by
  induction l1 with
  | nil => simp [lookupKey]
  | cons p ps ih =>
    rcases p with ⟨pk, pv⟩
    by_cases h : pk = k
    · simp [lookupKey, h]
    · simp only [List.cons_append, lookupKey, if_neg h]
      exact ih

theorem lookupKey_filter_ibw (kvs : List (String × JVal)) (k : String)
    (hk : k = "id" ∨ k = "basis" ∨ k = "warning") :
    lookupKey (kvs.filter
      (fun kv => !(decide (kv.1 = "id") || decide (kv.1 = "basis") || decide (kv.1 = "warning")))) k
      = none := by
  induction kvs with
  | nil => rfl
  | cons p ps ih =>
    rcases p with ⟨pk, pv⟩
    by_cases hp : pk = "id" ∨ pk = "basis" ∨ pk = "warning"
    · have : (!(decide (pk = "id") || decide (pk = "basis") || decide (pk = "warning"))) = false := by
        rcases hp with h | h | h <;> simp [h]
      simp only [List.filter_cons, this, if_neg (by simp : ¬(false = true))]
      exact ih
    · have : (!(decide (pk = "id") || decide (pk = "basis") || decide (pk = "warning"))) = true := by
        simp only [not_or] at hp
        simp [hp.1, hp.2.1, hp.2.2]
      simp only [List.filter_cons, this, if_pos rfl]
      have hne : pk ≠ k := by
        intro he
        rw [he] at hp
        exact hp hk
      simp only [lookupKey, if_neg hne]
      exact ih

theorem lookupKey_overrideIBW_id (kvs : List (String × JVal)) (i : Option String)
    (b w : List String) :
    lookupKey (overrideIBW kvs i b w) "id" = some (jOptStr i) := by
  unfold overrideIBW
  rw [lookupKey_append, lookupKey_filter_ibw kvs "id" (Or.inl rfl)]
  rfl

theorem lookupKey_overrideIBW_basis (kvs : List (String × JVal)) (i : Option String)
    (b w : List String) :
    lookupKey (overrideIBW kvs i b w) "basis" = some (JVal.arr (b.map JVal.str)) := by
  unfold overrideIBW
  rw [lookupKey_append, lookupKey_filter_ibw kvs "basis" (Or.inr (Or.inl rfl))]
  rfl

theorem lookupKey_overrideIBW_warning (kvs : List (String × JVal)) (i : Option String)
    (b w : List String) :
    lookupKey (overrideIBW kvs i b w) "warning" = some (JVal.arr (w.map JVal.str)) := by
  unfold overrideIBW
  rw [lookupKey_append, lookupKey_filter_ibw kvs "warning" (Or.inr (Or.inr rfl))]
  rfl

/-- If the validator succeeds, the input had string `id`, `basis` and
`warning` and the output is the overridden dict. -/
theorem matchValidated_ok (kvs kvs2 : List (String × JVal))
    (h : matchValidated kvs = Except.ok kvs2) :
    ∃ s bs ws,
      lookupKey kvs "id" = some (JVal.str s) ∧
      lookupKey kvs "basis" = some (JVal.str bs) ∧
      lookupKey kvs "warning" = some (JVal.str ws) ∧
      kvs2 = overrideIBW kvs (normalizeId s) (splitField bs) (splitField ws) := by
  unfold matchValidated at h
  cases hid : lookupKey kvs "id" with
  | none => rw [hid] at h; exact absurd h (by simp)
  | some idv =>
    rw [hid] at h
    cases idv with
    | str s =>
      cases hbs : lookupKey kvs "basis" with
      | none => rw [hbs] at h; exact absurd h (by simp)
      | some bv =>
        rw [hbs] at h
        cases bv with
        | str bs =>
          cases hws : lookupKey kvs "warning" with
          | none => rw [hws] at h; exact absurd h (by simp)
          | some wv =>
            rw [hws] at h
            cases wv with
            | str ws =>
              exact ⟨s, bs, ws, rfl, rfl, rfl, (Except.ok.inj h).symm⟩
            | null => exact absurd h (by simp)
            | int n => exact absurd h (by simp)
            | arr xs => exact absurd h (by simp)
            | obj o => exact absurd h (by simp)
        | null => exact absurd h (by simp)
        | int n => exact absurd h (by simp)
        | arr xs => exact absurd h (by simp)
        | obj o => exact absurd h (by simp)
    | null => exact absurd h (by simp)
    | int n => exact absurd h (by simp)
    | arr xs => exact absurd h (by simp)
    | obj o => exact absurd h (by simp)

/-- If `basis` arrives as an array, the validator raises (`AttributeError`
or, when `id` is absent, `KeyError`) rather than producing a dict. -/
theorem matchValidated_basis_arr (kvs : List (String × JVal)) (xs : List JVal)
    (h : lookupKey kvs "basis" = some (JVal.arr xs)) :
    ∃ msg, matchValidated kvs = Except.error (DecErr.pyError msg) := by
  unfold matchValidated
  cases hid : lookupKey kvs "id" with
  | none => exact ⟨"KeyError: id", rfl⟩
  | some idv =>
    cases idv with
    | str s => rw [h]; exact ⟨"AttributeError: strip", rfl⟩
    | null => exact ⟨"AttributeError: lower", rfl⟩
    | int n => exact ⟨"AttributeError: lower", rfl⟩
    | arr ys => exact ⟨"AttributeError: lower", rfl⟩
    | obj o => exact ⟨"AttributeError: lower", rfl⟩

/-- If `warning` arrives as an array, the validator raises. -/
theorem matchValidated_warning_arr (kvs : List (String × JVal)) (xs : List JVal)
    (h : lookupKey kvs "warning" = some (JVal.arr xs)) :
    ∃ msg, matchValidated kvs = Except.error (DecErr.pyError msg) := by
  unfold matchValidated
  cases hid : lookupKey kvs "id" with
  | none => exact ⟨"KeyError: id", rfl⟩
  | some idv =>
    cases idv with
    | str s =>
      cases hbs : lookupKey kvs "basis" with
      | none => exact ⟨"KeyError: basis", rfl⟩
      | some bv =>
        cases bv with
        | str bs => rw [h]; exact ⟨"AttributeError: strip", rfl⟩
        | null => exact ⟨"AttributeError: strip", rfl⟩
        | int n => exact ⟨"AttributeError: strip", rfl⟩
        | arr ys => exact ⟨"AttributeError: strip", rfl⟩
        | obj o => exact ⟨"AttributeError: strip", rfl⟩
    | null => exact ⟨"AttributeError: lower", rfl⟩
    | int n => exact ⟨"AttributeError: lower", rfl⟩
    | arr ys => exact ⟨"AttributeError: lower", rfl⟩
    | obj o => exact ⟨"AttributeError: lower", rfl⟩

theorem decodeList_strs (e : JVal → Except DecErr String)
    (he : ∀ s, e (JVal.str s) = Except.ok s) (b : List String) :
    decodeList e (b.map JVal.str) = Except.ok b := by
  induction b with
  | nil => rfl
  | cons s ss ih =>
    simp only [List.map_cons, decodeList, he s, ebind_ok, ih]

theorem reqOptStr_overrideIBW (kvs : List (String × JVal)) (i : Option String)
    (b w : List String) :
    reqOptStr (overrideIBW kvs i b w) "id" = Except.ok i := by
  unfold reqOptStr
  rw [lookupKey_overrideIBW_id]
  cases i <;> rfl

theorem reqStrList_overrideIBW_basis (kvs : List (String × JVal)) (i : Option String)
    (b w : List String) :
    reqStrList (overrideIBW kvs i b w) "basis" = Except.ok b := by
  unfold reqStrList
  rw [lookupKey_overrideIBW_basis]
  exact decodeList_strs _ (fun s => rfl) b

theorem reqStrList_overrideIBW_warning (kvs : List (String × JVal)) (i : Option String)
    (b w : List String) :
    reqStrList (overrideIBW kvs i b w) "warning" = Except.ok w := by
  unfold reqStrList
  rw [lookupKey_overrideIBW_warning]
  exact decodeList_strs _ (fun s => rfl) w

/-- The fields of a successfully built match are exactly what the field
readers returned. -/
theorem buildMatch_proj (kvs : List (String × JVal)) (m : SiegfriedMatch)
    (h : buildMatch kvs = Except.ok m) :
    reqOptStr kvs "id" = Except.ok m.id ∧
    reqStrList kvs "basis" = Except.ok m.basis ∧
    reqStrList kvs "warning" = Except.ok m.warning := by
  unfold buildMatch at h
  obtain ⟨ns, hns, h⟩ := ebind_eq_ok h
  obtain ⟨idv, hid, h⟩ := ebind_eq_ok h
  obtain ⟨fmt, hfmt, h⟩ := ebind_eq_ok h
  obtain ⟨ver, hver, h⟩ := ebind_eq_ok h
  obtain ⟨mi, hmi, h⟩ := ebind_eq_ok h
  obtain ⟨mc, hmc, h⟩ := ebind_eq_ok h
  obtain ⟨bas, hbas, h⟩ := ebind_eq_ok h
  obtain ⟨war, hwar, h⟩ := ebind_eq_ok h
  obtain ⟨uri, huri, h⟩ := ebind_eq_ok h
  obtain ⟨pl, hpl, h⟩ := ebind_eq_ok h
  have hm := Except.ok.inj h
  rw [← hm]
  exact ⟨hid, hbas, hwar⟩

/-- The normalized fields of any successfully decoded match: `id` is the
normalization of the transport string, `basis` and `warning` are the
split of the transport strings. -/
theorem decodeMatch_fields (kvs : List (String × JVal)) (m : SiegfriedMatch)
    (h : decodeMatch (JVal.obj kvs) = Except.ok m) :
    ∃ s bs ws,
      lookupKey kvs "id" = some (JVal.str s) ∧
      lookupKey kvs "basis" = some (JVal.str bs) ∧
      lookupKey kvs "warning" = some (JVal.str ws) ∧
      m.id = normalizeId s ∧ m.basis = splitField bs ∧ m.warning = splitField ws := by
  unfold decodeMatch at h
  obtain ⟨kvs2, hv, hb⟩ := ebind_eq_ok h
  obtain ⟨s, bs, ws, hs, hbs, hws, hkvs2⟩ := matchValidated_ok kvs kvs2 hv
  obtain ⟨hidp, hbasp, hwarp⟩ := buildMatch_proj kvs2 m hb
  refine ⟨s, bs, ws, hs, hbs, hws, ?_, ?_, ?_⟩
  · have := reqOptStr_overrideIBW kvs (normalizeId s) (splitField bs) (splitField ws)
    rw [← hkvs2] at this
    rw [hidp] at this
    exact Except.ok.inj this
  · have := reqStrList_overrideIBW_basis kvs (normalizeId s) (splitField bs) (splitField ws)
    rw [← hkvs2] at this
    rw [hbasp] at this
    exact Except.ok.inj this
  · have := reqStrList_overrideIBW_warning kvs (normalizeId s) (splitField bs) (splitField ws)
    rw [← hkvs2] at this
    rw [hwarp] at this
    exact Except.ok.inj this

theorem decodeListAgg_map (dec : JVal → Except DecErr α) (enc : α → JVal) (l : List α)
    (h : ∀ x ∈ l, dec (enc x) = Except.ok x) :
    decodeListAgg dec (l.map enc) = Except.ok l := by
  induction l with
  | nil => rfl
  | cons x xs ih =>
    simp only [List.map_cons, decodeListAgg, h x (by simp),
      ih (fun y hy => h y (by simp [hy]))]

theorem reqStr_not_pyError (kvs : List (String × JVal)) (key msg : String) :
    reqStr kvs key ≠ Except.error (DecErr.pyError msg) := by
  unfold reqStr
  cases h : lookupKey kvs key with
  | none => simp
  | some v => cases v <;> simp

/-- Identifier validation involves only scalar fields, so it can fail
only with a validation error, never with a raised exception. -/
theorem decodeIdentifier_not_pyError (v : JVal) (msg : String) :
    decodeIdentifier v ≠ Except.error (DecErr.pyError msg) := by
  cases v with
  | obj kvs =>
    simp only [decodeIdentifier]
    cases h1 : reqStr kvs "name" with
    | error e =>
      rw [ebind_err]
      cases e with
      | validation m => simp
      | pyError m => exact absurd h1 (reqStr_not_pyError kvs "name" m)
    | ok n =>
      rw [ebind_ok]
      cases h2 : reqStr kvs "details" with
      | error e =>
        rw [ebind_err]
        cases e with
        | validation m => simp
        | pyError m => exact absurd h2 (reqStr_not_pyError kvs "details" m)
      | ok d =>
        rw [ebind_ok]
        simp
  | null => simp [decodeIdentifier]
  | str s => simp [decodeIdentifier]
  | int n => simp [decodeIdentifier]
  | arr xs => simp [decodeIdentifier]

theorem decodeListAgg_not_pyError (dec : JVal → Except DecErr α)
    (hdec : ∀ v msg, dec v ≠ Except.error (DecErr.pyError msg)) (l : List JVal) :
    ∀ msg, decodeListAgg dec l ≠ Except.error (DecErr.pyError msg) := by
  induction l with
  | nil => intro msg; simp [decodeListAgg]
  | cons v vs ih =>
    intro msg
    simp only [decodeListAgg]
    cases hv : dec v with
    | ok a =>
      cases hr : decodeListAgg dec vs with
      | ok as => simp
      | error e =>
        cases e with
        | validation m => simp
        | pyError m => exact absurd hr (ih m)
    | error e =>
      cases e with
      | validation m =>
        cases hr : decodeListAgg dec vs with
        | ok as => simp
        | error e2 =>
          cases e2 with
          | validation m2 => simp
          | pyError m2 => exact absurd hr (ih m2)
      | pyError m => exact absurd hv (hdec v m)

theorem decArrField_not_pyError (dec : JVal → Except DecErr α)
    (hdec : ∀ v msg, dec v ≠ Except.error (DecErr.pyError msg))
    (kvs : List (String × JVal)) (key : String) :
    ∀ msg, decArrField dec kvs key ≠ Except.error (DecErr.pyError msg) := by
  intro msg
  unfold decArrField
  cases h : lookupKey kvs key with
  | none => simp
  | some v =>
    cases v with
    | arr l => exact decodeListAgg_not_pyError dec hdec l msg
    | null => simp
    | str s => simp
    | int n => simp
    | obj o => simp

/-- With an unrecognized batch-level key present, assembling the result
never succeeds, whatever the field results were. -/
theorem assembleResult_extras_ne_ok (rsie rsd rsig rcr : Except DecErr String)
    (rids : Except DecErr (List SiegfriedIdentifier))
    (rfls : Except DecErr (List SiegfriedFile)) (r : SiegfriedResult) :
    assembleResult false rsie rsd rsig rcr rids rfls ≠ Except.ok r := by
  unfold assembleResult
  rcases rids with ⟨m | m⟩ | idsv <;> rcases rfls with ⟨m2 | m2⟩ | flsv <;> simp

/-- With an unrecognized batch-level key present and no crash among the
field results, assembling the result reports the aggregated validation
error. -/
theorem assembleResult_extras_validation (rsie rsd rsig rcr : Except DecErr String)
    (rids : Except DecErr (List SiegfriedIdentifier))
    (rfls : Except DecErr (List SiegfriedFile))
    (h1 : ∀ msg, rids ≠ Except.error (DecErr.pyError msg))
    (h2 : ∀ msg, rfls ≠ Except.error (DecErr.pyError msg)) :
    assembleResult false rsie rsd rsig rcr rids rfls =
      Except.error (DecErr.validation "extra fields forbidden") := by
  unfold assembleResult
  rcases rids with ⟨m | m⟩ | idsv
  · rcases rfls with ⟨m2 | m2⟩ | flsv
    · rfl
    · exact absurd rfl (h2 m2)
    · rfl
  · exact absurd rfl (h1 m)
  · rcases rfls with ⟨m2 | m2⟩ | flsv
    · rfl
    · exact absurd rfl (h2 m2)
    · rfl

theorem identRoundtrip (i : SiegfriedIdentifier) :
    decodeIdentifier (encodeIdentifier i) = Except.ok i := by
  obtain ⟨n, d⟩ := i
  rfl

theorem fileRoundtrip (f : SiegfriedFile) (h : f.matches = []) :
    decodeFile (encodeFile f) = Except.ok f := by
  obtain ⟨fn, fs, mo, er, ms⟩ := f
  have h2 : ms = [] := h
  subst h2
  rfl

/-- C9 (amended): encode-then-decode is the identity only for scan
results that contain no matches (every file's `matches` list is empty).
With any match present the re-decode fails instead, because
`model_dump_json` emits `basis`/`warning` as arrays and `id` possibly as
null, while the `unknown_id` validator requires strings (see the C9
counterexample). -/
theorem C9_roundtrip_empty (r : SiegfriedResult) (h : ∀ f ∈ r.files, f.matches = []) :
    decodeResult (encodeResult r) = Except.ok r := by
  obtain ⟨sie, sd, sig, cr, ids, fls⟩ := r
  have hids : decodeListAgg decodeIdentifier (ids.map encodeIdentifier) = Except.ok ids :=
    decodeListAgg_map _ _ _ (fun i _ => identRoundtrip i)
  have hfls : decodeListAgg decodeFile (fls.map encodeFile) = Except.ok fls :=
    decodeListAgg_map _ _ _ (fun f hf => fileRoundtrip f (h f hf))
  calc decodeResult (encodeResult ⟨sie, sd, sig, cr, ids, fls⟩)
      = assembleResult true (Except.ok sie) (Except.ok sd) (Except.ok sig) (Except.ok cr)
          (decodeListAgg decodeIdentifier (ids.map encodeIdentifier))
          (decodeListAgg decodeFile (fls.map encodeFile)) := rfl
    _ = Except.ok ⟨sie, sd, sig, cr, ids, fls⟩ := by
        rw [hids, hfls]
        rfl

theorem parseExt_ne_nil (l p : List Char) (h : parseExt l = some p) : p ≠ [] := by
  unfold parseExt at h
  cases hd : dropLit "extension match ".data l with
  | none =>
    rw [hd] at h
    simp at h
  | some r =>
    rw [hd] at h
    simp only at h
    by_cases h1 : r.takeWhile (fun c => !decide (c = '\n')) = []
    · rw [if_pos h1] at h
      simp at h
    · rw [if_neg h1] at h
      by_cases h2 : pyEnd (r.dropWhile (fun c => !decide (c = '\n'))) = true
      · rw [if_pos h2] at h
        rw [← Option.some.inj h]
        exact h1
      · rw [if_neg h2] at h
        simp at h

theorem extEntry_ne_empty (b : String) (s : String) (h : extEntry b = some s) :
    s ≠ "" := by
  unfold extEntry at h
  cases hp : parseExt b.data with
  | none =>
    rw [hp] at h
    simp at h
  | some p =>
    rw [hp] at h
    have hne := parseExt_ne_nil b.data p hp
    rw [← Option.some.inj h]
    intro hcon
    exact hne (stringMk_inj p [] (by rw [hcon]))

theorem extension_match_ne_empty (m : SiegfriedMatch) (s : String)
    (h : m.extension_match = some s) : s ≠ "" := by
  obtain ⟨b, _, hb⟩ := firstSome_eq_some extEntry m.basis s h
  exact extEntry_ne_empty b s hb

theorem strTruthy_nonempty (s : String) (h : s ≠ "") : s.isEmpty = false := by
  rw [Bool.eq_false_iff]
  intro hh
  exact h ((String.isEmpty_iff s).mp hh)

theorem pyIntOr0_eq_getD (o : Option Int) : pyIntOr0 o = o.getD 0 := by
  cases o with
  | none => rfl
  | some n =>
    by_cases h : n = 0
    · simp [pyIntOr0, h]
    · simp [pyIntOr0, h]

/-- The source's sort key equals the claim's description of it. -/
theorem sort_tuple_eq_spec (m : SiegfriedMatch) :
    m.sort_tuple = specRankTuple m := by
  unfold SiegfriedMatch.sort_tuple specRankTuple
  rw [pyIntOr0_eq_getD]
  simp only [Prod.mk.injEq]
  refine ⟨trivial, ?_, ?_, ?_, ?_⟩
  · cases he : m.extension_match with
    | none => rfl
    | some s =>
      have : s.isEmpty = false := strTruthy_nonempty s (extension_match_ne_empty m s he)
      simp [optTruthy, this]
  · by_cases h : m.format = ""
    · simp [h]
      decide
    · simp [h, strTruthy_nonempty m.format h]
  · cases hv : m.version with
    | none => rfl
    | some v =>
      by_cases h : v = ""
      · simp [optTruthy, h]
        decide
      · simp [optTruthy, h, strTruthy_nonempty v h]
  · by_cases h : m.mime = ""
    · simp [h]
      decide
    · simp [h, strTruthy_nonempty m.mime h]

/-- C1: `best_match()` considers only matches with a present `id`: it is
absent exactly when every match lacks an id, and otherwise returns a
member of `matches` that has an id and that no id-bearing match ranks
strictly above under the ranking key — regardless of the evidence carried
by id-less matches. (The hypothesis that no id is the empty string is the
decode invariant: `normalizeId` never produces an empty string.) -/
theorem C1_best_match_spec (f : SiegfriedFile)
    (h : ∀ m ∈ f.matches, m.id ≠ some "") :
    (f.best_match = none ↔ ∀ m ∈ f.matches, m.id = none) ∧
    (∀ b, f.best_match = some b →
      b ∈ f.matches ∧ b.id ≠ none ∧
      ∀ m ∈ f.matches, m.id ≠ none →
        tupLt b.sort_tuple m.sort_tuple = false) := by
  have key : ∀ m ∈ f.matches, (optTruthy m.id = true ↔ m.id ≠ none) := by
    intro m hm
    cases hid : m.id with
    | none => simp [optTruthy]
    | some s =>
      have hs : s ≠ "" := by
        intro he
        exact h m hm (by rw [hid, he])
      simp [optTruthy, strTruthy_nonempty s hs]
  constructor
  · rw [SiegfriedFile.best_match, List.getLast?_eq_none_iff, pySort_eq_nil_iff,
      List.filter_eq_nil_iff]
    constructor
    · intro hall m hm
      have := hall m hm
      rcases hid : m.id with _ | s
      · rfl
      · exact absurd ((key m hm).mpr (by rw [hid]; simp)) (by simp [this])
    · intro hall m hm
      rw [hall m hm]
      simp [optTruthy]
  · intro b hb
    have hbmem : b ∈ pySort ltMatch (f.matches.filter (fun m => optTruthy m.id)) :=
      List.mem_of_mem_getLast? hb
    have hbfl : b ∈ f.matches.filter (fun m => optTruthy m.id) :=
      (mem_pySort _ _ b).mp hbmem
    have hbm : b ∈ f.matches ∧ optTruthy b.id = true := List.mem_filter.mp hbfl
    refine ⟨hbm.1, (key b hbm.1).mp hbm.2, ?_⟩
    intro m hm hmid
    have hmfl : m ∈ f.matches.filter (fun m => optTruthy m.id) :=
      List.mem_filter.mpr ⟨hm, (key m hm).mpr hmid⟩
    have hmax := pairwise_getLast_max ltMatch ltMatch_irrefl _ b
      (pairwise_pySort ltMatch ltMatch_asymm ltMatch_not_trans _) hb
    exact hmax m ((mem_pySort _ _ m).mpr hmfl)

theorem C1_witness :
    (∀ m ∈ exC1file.matches, m.id ≠ some "") ∧
    ((exC1file.best_match = none ↔ ∀ m ∈ exC1file.matches, m.id = none) ∧
     (∀ b, exC1file.best_match = some b →
       b ∈ exC1file.matches ∧ b.id ≠ none ∧
       ∀ m ∈ exC1file.matches, m.id ≠ none →
         tupLt b.sort_tuple m.sort_tuple = false)) :=
  ⟨by decide, C1_best_match_spec exC1file (by decide)⟩

/-- C2: the ranking key is the 5-tuple the claim describes (byte-match
length with absent as 0, then 1/0 flags for extension-match presence and
non-emptiness of format, version and mime), and the comparison is
lexicographic with the byte-match length most significant: a strictly
larger byte-match length ranks strictly higher whatever the other
signals. -/
theorem C2_ranking_key :
    (∀ m : SiegfriedMatch, m.sort_tuple = specRankTuple m) ∧
    (∀ m1 m2 : SiegfriedMatch,
      m1.byte_match.getD 0 < m2.byte_match.getD 0 →
      tupLt m1.sort_tuple m2.sort_tuple = true ∧
      tupLt m2.sort_tuple m1.sort_tuple = false) := by
  refine ⟨sort_tuple_eq_spec, fun m1 m2 h => ?_⟩
  have h1 : (m1.sort_tuple).1 < (m2.sort_tuple).1 := by
    rw [sort_tuple_eq_spec m1, sort_tuple_eq_spec m2]
    exact h
  exact ⟨tupLt_first _ _ h1, tupLt_asymm _ _ (tupLt_first _ _ h1)⟩

theorem C2_witness :
    exC2a.byte_match.getD 0 < exC2b.byte_match.getD 0 ∧
    (tupLt exC2a.sort_tuple exC2b.sort_tuple = true ∧
     tupLt exC2b.sort_tuple exC2a.sort_tuple = false) :=
  ⟨by decide, C2_ranking_key.2 exC2a exC2b (by decide)⟩

theorem byteEntry_note (note : List Char) (h : ∀ c ∈ note, ¬ c = ')') :
    byteEntry (String.mk ("byte match at 10, 42 (".data ++ note ++ [')'])) = some 32 := by
  have hdrop : List.dropWhile (fun c => !decide (c = ')')) (note ++ [')']) = [')'] := by
    rw [dropWhile_append_all _ note [')'] (fun c hc => by simp [h c hc])]
    rfl
  have h2 : singleTail (' ' :: '(' :: (note ++ [')'])) = true := by
    have h0 : singleTail (' ' :: '(' :: (note ++ [')'])) =
        (match List.dropWhile (fun c => !decide (c = ')')) (note ++ [')']) with
         | ')' :: u => pyEnd u
         | _ => false) := rfl
    rw [h0, hdrop]
    rfl
  unfold byteEntry
  rw [show (String.mk ("byte match at 10, 42 (".data ++ note ++ [')'])).data
        = "byte match at 10, 42 (".data ++ note ++ [')'] from rfl]
  rw [show parseByteSingle ("byte match at 10, 42 (".data ++ note ++ [')'])
        = (if singleTail (' ' :: '(' :: (note ++ [')'])) = true
           then some ((10 : Int), (42 : Int)) else none) from rfl]
  rw [h2]
  rfl

/-- C3 counterexample: a match whose basis contains the entry
`byte match at 10, 42` but whose derived byte-match length is 5, not 32,
because an earlier basis entry already matches a byte pattern. -/
theorem C3_counterexample :
    "byte match at 10, 42" ∈ exC3.basis ∧
    exC3.byte_match = some 5 ∧ exC3.byte_match ≠ some 32 := by
  decide

/-- C3 (amended): the derived byte-match length comes from the first basis
entry matched by a byte pattern. If that entry is `byte match at 10, 42`
(optionally followed by a parenthetical note) the length is 32; if it is
`byte match at [[5 20] [5 20]]` the length is 15, computed from the first
start/end pair only. -/
theorem C3_byte_match_first (m : SiegfriedMatch) (pre post : List String)
    (hpre : ∀ b ∈ pre, byteEntry b = none) :
    (m.basis = pre ++ "byte match at 10, 42" :: post → m.byte_match = some 32) ∧
    (∀ note : List Char, (∀ c ∈ note, ¬ c = ')') →
      m.basis = pre ++ String.mk ("byte match at 10, 42 (".data ++ note ++ [')']) :: post →
      m.byte_match = some 32) ∧
    (m.basis = pre ++ "byte match at [[5 20] [5 20]]" :: post → m.byte_match = some 15) := by
  refine ⟨?_, ?_, ?_⟩
  · intro hb
    rw [SiegfriedMatch.byte_match, hb, firstSome_append_none _ _ _ hpre]
    exact firstSome_cons_some _ _ _ _ (by decide)
  · intro note hnote hb
    rw [SiegfriedMatch.byte_match, hb, firstSome_append_none _ _ _ hpre]
    exact firstSome_cons_some _ _ _ _ (byteEntry_note note hnote)
  · intro hb
    rw [SiegfriedMatch.byte_match, hb, firstSome_append_none _ _ _ hpre]
    exact firstSome_cons_some _ _ _ _ (by decide)

theorem C3_witness :
    (∀ b ∈ ["extension match .pdf"], byteEntry b = none) ∧
    (∀ c ∈ "regex".data, ¬ c = ')') ∧
    exC3w.byte_match = some 32 :=
  ⟨by decide, by decide,
   (C3_byte_match_first exC3w ["extension match .pdf"] [] (by decide)).2.1
     "regex".data (by decide) (by decide)⟩

/-- C6 counterexample: for the basis entry `extension match .pdf (note)`
the derived extension-match token keeps the parenthetical annotation and
is not the trimmed `.pdf`. -/
theorem C6_counterexample :
    exC6.basis = ["extension match .pdf (note)"] ∧
    exC6.extension_match = some ".pdf (note)" ∧
    exC6.extension_match ≠ some ".pdf" := by
  decide

/-- C6 (amended): the derived extension-match token of the first basis
entry matched by the extension pattern is everything after the literal
`extension match ` verbatim — untrimmed, and with any trailing
parenthetical annotation included. In particular `extension match .pdf`
alone yields exactly `.pdf`, while `extension match .pdf (note)` yields
`.pdf (note)`. -/
theorem C6_extension_match_verbatim (m : SiegfriedMatch) (pre post : List String)
    (rest : List Char) (hpre : ∀ b ∈ pre, extEntry b = none)
    (hne : rest ≠ []) (hnl : ∀ c ∈ rest, ¬ c = '\n')
    (hbasis : m.basis = pre ++ String.mk ("extension match ".data ++ rest) :: post) :
    m.extension_match = some (String.mk rest) := by
  have hp : parseExt ("extension match ".data ++ rest) = some rest := by
    have h0 : parseExt ("extension match ".data ++ rest) =
        (if rest.takeWhile (fun c => !decide (c = '\n')) = [] then none
         else if pyEnd (rest.dropWhile (fun c => !decide (c = '\n'))) = true
           then some (rest.takeWhile (fun c => !decide (c = '\n'))) else none) := rfl
    rw [h0, takeWhile_all _ rest (fun c hc => by simp [hnl c hc]),
      dropWhile_all _ rest (fun c hc => by simp [hnl c hc]), if_neg hne,
      if_pos (show pyEnd [] = true from rfl)]
  have he : extEntry (String.mk ("extension match ".data ++ rest)) = some (String.mk rest) := by
    unfold extEntry
    rw [show (String.mk ("extension match ".data ++ rest)).data
          = "extension match ".data ++ rest from rfl]
    rw [hp]
  rw [SiegfriedMatch.extension_match, hbasis, firstSome_append_none _ _ _ hpre]
  exact firstSome_cons_some _ _ _ _ he

theorem C6_witness :
    (∀ b ∈ ["byte match at 0, 5"], extEntry b = none) ∧
    ".docx".data ≠ [] ∧ (∀ c ∈ ".docx".data, ¬ c = '\n') ∧
    exC6w.extension_match = some ".docx" :=
  ⟨by decide, by decide, by decide,
   C6_extension_match_verbatim exC6w ["byte match at 0, 5"] [] ".docx".data
     (by decide) (by decide) (by decide) (by decide)⟩

/-- C8 counterexample: warnings containing the mismatch phrases only as
proper substrings of longer entries set neither flag. -/
theorem C8_counterexample :
    exC8.warning = ["extension mismatch detected", "a filename mismatch here"] ∧
    exC8.extension_mismatch = false ∧ exC8.filename_mismatch = false := by
  decide

/-- C8 (amended): the mismatch flags are exact list membership, true
exactly when some warning entry equals the whole string
`extension mismatch` (resp. `filename mismatch`); an entry merely
containing the phrase with surrounding text does not set the flag. -/
theorem C8_mismatch_flags (m : SiegfriedMatch) :
    (m.extension_mismatch = true ↔ "extension mismatch" ∈ m.warning) ∧
    (m.filename_mismatch = true ↔ "filename mismatch" ∈ m.warning) := by
  exact ⟨List.elem_iff, List.elem_iff⟩

/-- C4: a decoded match whose transport id, after trimming and
case-insensitive comparison, equals "unknown" gets an absent id; and no
decoded match ever has the literal id "unknown". -/
theorem C4_unknown_id :
    (∀ (kvs : List (String × JVal)) (s : String) (m : SiegfriedMatch),
      lookupKey kvs "id" = some (JVal.str s) →
      pyLowerL (pyStripL s.data) = "unknown".data →
      decodeMatch (JVal.obj kvs) = Except.ok m → m.id = none) ∧
    (∀ (kvs : List (String × JVal)) (m : SiegfriedMatch),
      decodeMatch (JVal.obj kvs) = Except.ok m → m.id ≠ some "unknown") := by
  constructor
  · intro kvs s m hs hunk hdec
    obtain ⟨s2, bs, ws, hs2, _, _, hid, _, _⟩ := decodeMatch_fields kvs m hdec
    have heq : s = s2 := by
      rw [hs] at hs2
      exact JVal.str.inj (Option.some.inj hs2)
    rw [hid, ← heq]
    exact normalizeId_unknown s hunk
  · intro kvs m hdec
    obtain ⟨s2, bs, ws, _, _, _, hid, _, _⟩ := decodeMatch_fields kvs m hdec
    rw [hid]
    exact normalizeId_ne_unknown s2

theorem C4_witness :
    lookupKey exC4kvs "id" = some (JVal.str " UnKnown ") ∧
    pyLowerL (pyStripL " UnKnown ".data) = "unknown".data ∧
    decodeMatch (JVal.obj exC4kvs) = Except.ok exC4match ∧
    exC4match.id = none :=
  ⟨rfl, by decide, by decide,
   C4_unknown_id.1 exC4kvs " UnKnown " exC4match rfl (by decide) (by decide)⟩

/-- C10: a decoded match whose transport id is empty or whitespace-only
gets an absent id (not an empty string), and a match with an absent id is
never returned by `best_match()` nor contained in `best_matches()`. -/
theorem C10_empty_id :
    (∀ (kvs : List (String × JVal)) (s : String) (m : SiegfriedMatch),
      lookupKey kvs "id" = some (JVal.str s) →
      pyStripL s.data = [] →
      decodeMatch (JVal.obj kvs) = Except.ok m → m.id = none) ∧
    (∀ (f : SiegfriedFile) (m : SiegfriedMatch), m.id = none →
      f.best_match ≠ some m ∧ m ∉ f.best_matches) := by
  constructor
  · intro kvs s m hs hempty hdec
    obtain ⟨s2, bs, ws, hs2, _, _, hid, _, _⟩ := decodeMatch_fields kvs m hdec
    have heq : s = s2 := by
      rw [hs] at hs2
      exact JVal.str.inj (Option.some.inj hs2)
    rw [hid, ← heq]
    exact normalizeId_empty s hempty
  · intro f m hnone
    have hfalse : optTruthy m.id = false := by
      rw [hnone]
      rfl
    constructor
    · intro hb
      have hmem : m ∈ f.matches.filter (fun m => optTruthy m.id) :=
        (mem_pySort _ _ m).mp (List.mem_of_mem_getLast? hb)
      have := (List.mem_filter.mp hmem).2
      rw [hfalse] at this
      exact absurd this (by simp)
    · intro hb
      have hmem : m ∈ f.matches.filter (fun m => optTruthy m.id) := by
        have h1 := (List.mem_reverse).mp (by simpa [SiegfriedFile.best_matches, pySortDesc] using hb)
        have h2 := (mem_pySort _ _ m).mp h1
        exact (List.mem_reverse).mp h2
      have := (List.mem_filter.mp hmem).2
      rw [hfalse] at this
      exact absurd this (by simp)

theorem C10_witness :
    pyStripL "   ".data = [] ∧
    decodeMatch (JVal.obj exC10kvs) = Except.ok exC10match ∧
    exC10match.id = none ∧
    (exC10file.best_match ≠ some exC10m ∧ exC10m ∉ exC10file.best_matches) :=
  ⟨by decide, by decide,
   C10_empty_id.1 exC10kvs "   " exC10match rfl (by decide) (by decide),
   C10_empty_id.2 exC10file exC10m (by decide)⟩

theorem lookupKey_snoc_ne (kvs : List (String × JVal)) (k key : String) (v : JVal)
    (h : key ≠ k) :
    lookupKey (kvs ++ [(k, v)]) key = lookupKey kvs key := by
  rw [lookupKey_append]
  cases hl : lookupKey kvs key with
  | some w => rfl
  | none =>
    simp only [lookupKey, if_neg (Ne.symm h)]

theorem reqStr_snoc_ne (kvs : List (String × JVal)) (k key : String) (v : JVal)
    (h : key ≠ k) :
    reqStr (kvs ++ [(k, v)]) key = reqStr kvs key := by
  unfold reqStr
  rw [lookupKey_snoc_ne kvs k key v h]

theorem reqInt_snoc_ne (kvs : List (String × JVal)) (k key : String) (v : JVal)
    (h : key ≠ k) :
    reqInt (kvs ++ [(k, v)]) key = reqInt kvs key := by
  unfold reqInt
  rw [lookupKey_snoc_ne kvs k key v h]

/-- C5 counterexample: a scan-result payload whose file-level object
carries an unrecognized key decodes successfully — the key is silently
ignored, not rejected. -/
theorem C5_counterexample :
    decodeResult exC5json = Except.ok exC5result := by
  decide

/-- C5 (amended): an unrecognized key at the batch (scan-result) level
makes decoding fail — it never succeeds — and the failure is the
aggregated validation error (the spec's `DecodeError`) whenever field
validation does not crash first, in particular whenever the `files`
array decodes without an exception from the `unknown_id` validator; an
unrecognized key inside a file-level object is silently ignored — adding
it does not change the decode result. -/
theorem C5_extra_keys :
    (∀ (kvs : List (String × JVal)) (r : SiegfriedResult),
      (∃ kv ∈ kvs, kv.1 ∉ resultKeys) →
      decodeResult (JVal.obj kvs) ≠ Except.ok r) ∧
    (∀ (kvs : List (String × JVal)) (l : List JVal),
      (∃ kv ∈ kvs, kv.1 ∉ resultKeys) →
      lookupKey kvs "files" = some (JVal.arr l) →
      (∀ msg, decodeListAgg decodeFile l ≠ Except.error (DecErr.pyError msg)) →
      ∃ msg, decodeResult (JVal.obj kvs) = Except.error (DecErr.validation msg)) ∧
    (∀ (kvs : List (String × JVal)) (k : String) (v : JVal), k ∉ fileKeys →
      decodeFile (JVal.obj (kvs ++ [(k, v)])) = decodeFile (JVal.obj kvs)) := by
  refine ⟨?_, ?_, ?_⟩
  · rintro kvs r ⟨kv, hmem, hnot⟩
    have hall : (kvs.all fun kv => decide (kv.1 ∈ resultKeys)) = false := by
      rw [List.all_eq_false]
      exact ⟨kv, hmem, by simp [hnot]⟩
    simp only [decodeResult]
    rw [hall]
    exact assembleResult_extras_ne_ok _ _ _ _ _ _ r
  · rintro kvs l ⟨kv, hmem, hnot⟩ hfl hnocrash
    have hall : (kvs.all fun kv => decide (kv.1 ∈ resultKeys)) = false := by
      rw [List.all_eq_false]
      exact ⟨kv, hmem, by simp [hnot]⟩
    refine ⟨"extra fields forbidden", ?_⟩
    simp only [decodeResult]
    rw [hall]
    apply assembleResult_extras_validation
    · exact decArrField_not_pyError decodeIdentifier decodeIdentifier_not_pyError kvs "identifiers"
    · intro msg
      unfold decArrField
      rw [hfl]
      exact hnocrash msg
  · intro kvs k v hk
    have h1 : ("filename" : String) ≠ k := by
      intro he
      exact hk (by rw [← he]; simp [fileKeys])
    have h2 : ("filesize" : String) ≠ k := by
      intro he
      exact hk (by rw [← he]; simp [fileKeys])
    have h3 : ("modified" : String) ≠ k := by
      intro he
      exact hk (by rw [← he]; simp [fileKeys])
    have h4 : ("errors" : String) ≠ k := by
      intro he
      exact hk (by rw [← he]; simp [fileKeys])
    have h5 : ("matches" : String) ≠ k := by
      intro he
      exact hk (by rw [← he]; simp [fileKeys])
    simp only [decodeFile, decArrField]
    rw [reqStr_snoc_ne kvs k "filename" v h1, reqInt_snoc_ne kvs k "filesize" v h2,
      reqStr_snoc_ne kvs k "modified" v h3, reqStr_snoc_ne kvs k "errors" v h4,
      lookupKey_snoc_ne kvs k "matches" v h5]

theorem C5_witness :
    (∃ kv ∈ exC5batch, kv.1 ∉ resultKeys) ∧
    decodeResult (JVal.obj exC5batch) ≠ Except.ok exC5result ∧
    (∃ msg, decodeResult (JVal.obj exC5batch) = Except.error (DecErr.validation msg)) ∧
    ("unexpected" ∉ fileKeys) ∧
    decodeFile (JVal.obj (exC5fkvs ++ [("unexpected", JVal.str "surprise")])) =
      decodeFile (JVal.obj exC5fkvs) :=
  ⟨by decide,
   C5_extra_keys.1 exC5batch exC5result (by decide),
   C5_extra_keys.2.1 exC5batch [] (by decide) rfl
     (fun msg hcon => by simp [decodeListAgg] at hcon),
   by decide,
   C5_extra_keys.2.2 exC5fkvs "unexpected" (JVal.str "surprise") (by decide)⟩

theorem dropWhile_dropWhile (p : Char → Bool) (l : List Char) :
    (l.dropWhile p).dropWhile p = l.dropWhile p := by
  induction l with
  | nil => rfl
  | cons c cs ih =>
    by_cases h : p c = true
    · simp [List.dropWhile_cons, h, ih]
    · simp [List.dropWhile_cons, h]

theorem length_dropWhile (p : Char → Bool) (l : List Char) :
    (l.dropWhile p).length ≤ l.length := by
  induction l with
  | nil => simp
  | cons c cs ih =>
    rw [List.dropWhile_cons]
    by_cases h : p c = true
    · rw [if_pos h, List.length_cons]
      omega
    · rw [if_neg h]

theorem dropWhile_head_false (p : Char → Bool) (m : List Char)
    (hm : m.dropWhile p = m) :
    ∀ x t, m = x :: t → p x = false := by
  intro x t he
  subst he
  by_contra hpx
  rw [Bool.not_eq_false] at hpx
  rw [List.dropWhile_cons, if_pos hpx] at hm
  have h1 := length_dropWhile p t
  have h2 := congrArg List.length hm
  simp at h2
  omega

theorem dropWhile_rev_fix (p : Char → Bool) (m : List Char)
    (hm : m.dropWhile p = m) :
    ((m.reverse.dropWhile p).reverse).dropWhile p = (m.reverse.dropWhile p).reverse := by
  have hm2 : m = (m.reverse.dropWhile p).reverse ++ (m.reverse.takeWhile p).reverse := by
    calc m = m.reverse.reverse := (List.reverse_reverse m).symm
    _ = (m.reverse.takeWhile p ++ m.reverse.dropWhile p).reverse := by
        rw [List.takeWhile_append_dropWhile]
    _ = (m.reverse.dropWhile p).reverse ++ (m.reverse.takeWhile p).reverse := by
        rw [List.reverse_append]
  cases hc : (m.reverse.dropWhile p).reverse with
  | nil => rfl
  | cons x t =>
    have hx : p x = false := by
      apply dropWhile_head_false p m hm x (t ++ (m.reverse.takeWhile p).reverse)
      exact hm2.trans (by rw [hc, List.cons_append])
    rw [List.dropWhile_cons, if_neg (by simp [hx])]

theorem pyStripL_idem (l : List Char) : pyStripL (pyStripL l) = pyStripL l := by
  have hm : (l.dropWhile pyIsSpace).dropWhile pyIsSpace = l.dropWhile pyIsSpace :=
    dropWhile_dropWhile pyIsSpace l
  show pyStripL ((((l.dropWhile pyIsSpace).reverse).dropWhile pyIsSpace).reverse)
      = (((l.dropWhile pyIsSpace).reverse).dropWhile pyIsSpace).reverse
  unfold pyStripL
  rw [dropWhile_rev_fix pyIsSpace (l.dropWhile pyIsSpace) hm, List.reverse_reverse,
    dropWhile_dropWhile]

/-- Every fragment produced by the basis/warning splitting is already
stripped and non-empty. -/
theorem splitField_props (s : String) :
    ∀ x ∈ splitField s, String.mk (pyStripL x.data) = x ∧ x ≠ "" := by
  intro x hx
  unfold splitField at hx
  rw [List.mem_map] at hx
  obtain ⟨f, hf, hfx⟩ := hx
  rw [List.mem_filter] at hf
  obtain ⟨hf1, hf2⟩ := hf
  rw [List.mem_map] at hf1
  obtain ⟨g, hg, hgf⟩ := hf1
  constructor
  · rw [← hfx, show (String.mk f).data = f from rfl, ← hgf, pyStripL_idem]
  · rw [← hfx]
    intro hcon
    have hfe : f = [] := stringMk_inj f [] (by rw [hcon])
    rw [hfe] at hf2
    simp at hf2

/-- C7 counterexample: a match whose `basis` arrives as an array is not
decoded — the validator raises `AttributeError` (an uncaught exception,
not a successful decode). -/
theorem C7_counterexample :
    lookupKey exC7kvs "basis" = some (JVal.arr [JVal.str "extension match .pdf"]) ∧
    decodeMatch (JVal.obj exC7kvs) = Except.error (DecErr.pyError "AttributeError: strip") :=
  ⟨rfl, by decide⟩

/-- C7 (amended): decoding accepts `basis` and `warning` only in the
single `;`-delimited string form, in which case the decoded field is the
ordered sequence of fragments, each already stripped and with empty
fragments dropped; the array form makes the `unknown_id` validator raise
(`AttributeError`), so no match is decoded. -/
theorem C7_basis_warning_forms :
    (∀ (kvs : List (String × JVal)) (bs : String) (m : SiegfriedMatch),
      lookupKey kvs "basis" = some (JVal.str bs) →
      decodeMatch (JVal.obj kvs) = Except.ok m →
      m.basis = splitField bs ∧
        ∀ x ∈ m.basis, String.mk (pyStripL x.data) = x ∧ x ≠ "") ∧
    (∀ (kvs : List (String × JVal)) (ws : String) (m : SiegfriedMatch),
      lookupKey kvs "warning" = some (JVal.str ws) →
      decodeMatch (JVal.obj kvs) = Except.ok m →
      m.warning = splitField ws ∧
        ∀ x ∈ m.warning, String.mk (pyStripL x.data) = x ∧ x ≠ "") ∧
    (∀ (kvs : List (String × JVal)) (xs : List JVal),
      lookupKey kvs "basis" = some (JVal.arr xs) →
      ∃ msg, decodeMatch (JVal.obj kvs) = Except.error (DecErr.pyError msg)) ∧
    (∀ (kvs : List (String × JVal)) (xs : List JVal),
      lookupKey kvs "warning" = some (JVal.arr xs) →
      ∃ msg, decodeMatch (JVal.obj kvs) = Except.error (DecErr.pyError msg)) := by
  refine ⟨?_, ?_, ?_, ?_⟩
  · intro kvs bs m hbs hdec
    obtain ⟨s2, bs2, ws2, _, hbs2, _, _, hbasis, _⟩ := decodeMatch_fields kvs m hdec
    have heq : bs = bs2 := by
      rw [hbs] at hbs2
      exact JVal.str.inj (Option.some.inj hbs2)
    rw [hbasis, ← heq]
    exact ⟨rfl, splitField_props bs⟩
  · intro kvs ws m hws hdec
    obtain ⟨s2, bs2, ws2, _, _, hws2, _, _, hwarn⟩ := decodeMatch_fields kvs m hdec
    have heq : ws = ws2 := by
      rw [hws] at hws2
      exact JVal.str.inj (Option.some.inj hws2)
    rw [hwarn, ← heq]
    exact ⟨rfl, splitField_props ws⟩
  · intro kvs xs hx
    obtain ⟨msg, hmv⟩ := matchValidated_basis_arr kvs xs hx
    refine ⟨msg, ?_⟩
    simp only [decodeMatch]
    rw [hmv, ebind_err]
  · intro kvs xs hx
    obtain ⟨msg, hmv⟩ := matchValidated_warning_arr kvs xs hx
    refine ⟨msg, ?_⟩
    simp only [decodeMatch]
    rw [hmv, ebind_err]

theorem C7_witness :
    lookupKey exC7kvsStr "basis" =
      some (JVal.str " extension match .pdf ; ;byte match at 0, 5 ") ∧
    decodeMatch (JVal.obj exC7kvsStr) = Except.ok exC7match ∧
    (exC7match.basis = splitField " extension match .pdf ; ;byte match at 0, 5 " ∧
      ∀ x ∈ exC7match.basis, String.mk (pyStripL x.data) = x ∧ x ≠ "") ∧
    (∃ msg, decodeMatch (JVal.obj exC7kvs) = Except.error (DecErr.pyError msg)) :=
  ⟨rfl, by decide,
   C7_basis_warning_forms.1 exC7kvsStr " extension match .pdf ; ;byte match at 0, 5 "
     exC7match rfl (by decide),
   C7_basis_warning_forms.2.2.1 exC7kvs [JVal.str "extension match .pdf"] rfl⟩

/-- C9 counterexample: a well-formed scan result holding one match does
not round-trip: re-decoding its encoding crashes in the `unknown_id`
validator (the dumped `basis` is an array, which has no `strip`). -/
theorem C9_counterexample :
    decodeResult (encodeResult exC9) = Except.error (DecErr.pyError "AttributeError: strip") ∧
    decodeResult (encodeResult exC9) ≠ Except.ok exC9 := by
  decide

theorem C9_witness :
    (∀ f ∈ exC9empty.files, f.matches = []) ∧
    decodeResult (encodeResult exC9empty) = Except.ok exC9empty :=
  ⟨by decide, C9_roundtrip_empty exC9empty (by decide)⟩
